import Mathlib

/-! Kinetic sculpture: lighting and animation pipeline of `multiple_lights.cpp`.

A shallow embedding of the per-frame code of `src/multiple_lights.cpp`:

* the motion `switch (currentMode)` of the point-light loop (`motionStep`),
* the `Q`/`E` spotlight sweep (`sweepStep`),
* the `G` debounce of `processInput` (`gStep`),
* the whole loop body as a function producing the trace of shader and draw
  calls (`frame`).

C++ `float` is read as an exact ordered field `α` (the theorems instantiate it
with `ℝ`); `sin` and `cos` are parameters of the definitions, instantiated
with `Real.sin` and `Real.cos`.  `fmod` is the truncated remainder and `abs`
the absolute value.  The loop counter `int i` only takes non-negative values
and is a `Nat`, converted to `α` where the source converts it to `float`.

The fixed-size arrays `anchors`, `colors` and `positions` are functions on
`Fin 8`; an index outside them, or a read of an entry of `positions` that was
never assigned, makes the frame fail (`none`).  The trace records the calls on
the two shader objects, `glBindVertexArray` and `glDrawArrays`; the calls that
clear the window, bind the textures and swap the buffers are left out, and so
are the mouse callbacks, which only change the camera between frames.
-/

namespace KineticSculpture

/-! ## Vectors -/

/-- The type `glm::vec3`: three scalar components. -/
structure Vec3 (α : Type) where
  x : α
  y : α
  z : α
deriving DecidableEq, Repr

instance {α : Type} [Add α] : Add (Vec3 α) where
  add a b := { x := a.x + b.x, y := a.y + b.y, z := a.z + b.z }

/-- The C function `fmod`: `x - y * trunc (x / y)`, the remainder of the
division truncated towards zero (its sign is the sign of `x`). -/
def fmod {α : Type} [LinearOrderedField α] [FloorRing α] (x y : α) : α :=
  if 0 ≤ x / y then x - y * (⌊x / y⌋ : ℤ) else x - y * (⌈x / y⌉ : ℤ)

/-! ## The motion switch (lines 220-244) -/

/-- The local `float h` of `case 3` (line 233), for light `i` at time `time`. -/
def spiralH {α : Type} [LinearOrderedField α] [FloorRing α] (time : α) (i : Nat) : α :=
  fmod (time * 0.4 + 0.2 * (i : α)) 3.0 - 1.5

/-- Body of `switch (currentMode)` in the point-light loop, applied to the
local `pos` (which the loop initialises with `anchors[i]`).  A mode outside
`1..4` matches no `case` and leaves `pos` as it is. -/
def motionStep {α : Type} [LinearOrderedField α] [FloorRing α] (sin cos : α → α)
    (currentMode : Int) (time : α) (i : Nat) (pos : Vec3 α) : Vec3 α :=
  if currentMode = 1 then
    -- ORBIT
    let r : α := 0.6 + 0.2 * (i : α)
    let pos := { pos with x := pos.x + r * sin (time * 0.9 + (i : α)) }
    let pos := { pos with z := pos.z + r * cos (time * 1.1 + 0.5 * (i : α)) }
    { pos with y := pos.y + 0.2 * sin (time * 1.3 + (i : α) * 0.7) }
  else if currentMode = 2 then
    -- PENDULUM
    let a : α := sin (time * 1.2 + (i : α)) * 0.6
    pos + ⟨sin a * (1.0 + 0.2 * (i : α)), -|sin a| * 0.2 + 0.6, 0.0⟩
  else if currentMode = 3 then
    -- SPIRAL
    let h : α := spiralH time i
    let r : α := 0.8 + 0.25 * (i : α)
    (⟨r * cos (time * 1.0 + (i : α)), 1.0 + h, r * sin (time * 1.0 + (i : α))⟩ : Vec3 α)
      + ⟨0, 0, -2.0⟩
  else if currentMode = 4 then
    -- SWARM
    pos + ⟨0.4 * sin (time * 1.7 + (i : α) * 1.1),
           0.3 * sin (time * 2.3 + (i : α) * 0.9),
           0.4 * cos (time * 1.5 + (i : α) * 1.3)⟩
  else pos

/-- The anchor table `anchors[8]` of `main` (lines 158-167). -/
def anchors {α : Type} [LinearOrderedField α] : Fin 8 → Vec3 α :=
  ![⟨0.0, 1.2, 2.5⟩, ⟨2.5, 1.0, -2.0⟩, ⟨-2.5, 1.4, -4.0⟩, ⟨0.0, 2.0, -3.0⟩,
    ⟨1.8, 2.2, -1.0⟩, ⟨-3.5, 1.6, -2.0⟩, ⟨3.0, 1.8, -3.5⟩, ⟨-1.8, 2.2, 1.0⟩]

/-- The colour table `colors[8]` of `main` (lines 168-171). -/
def colors {α : Type} [LinearOrderedField α] : Fin 8 → Vec3 α :=
  ![⟨1.0, 0.6, 0.6⟩, ⟨0.6, 1.0, 0.6⟩, ⟨0.6, 0.6, 1.0⟩, ⟨1.0, 1.0, 0.6⟩,
    ⟨1.0, 0.6, 1.0⟩, ⟨0.6, 1.0, 1.0⟩, ⟨1.0, 0.8, 0.5⟩, ⟨0.7, 0.9, 0.7⟩]

/-- The position the point-light loop resolves for light `i` (lines 220-245):
`pos` starts as `anchors[i]` and goes through the motion switch. -/
def resolvePos {α : Type} [LinearOrderedField α] [FloorRing α] (sin cos : α → α)
    (anchorTable : Fin 8 → Vec3 α) (currentMode : Int) (time : α) (i : Fin 8) : Vec3 α :=
  motionStep sin cos currentMode time i.val (anchorTable i)

/-! ## Input state: the `G` debounce and the `Q`/`E` sweep -/

/-- The two variables the `G` handling of `processInput` reads and writes: the
global `useGamma` and the function-local `static bool gPressed`. -/
structure GState where
  useGamma : Bool
  gPressed : Bool
deriving DecidableEq, Repr

/-- Lines 327-328 of `processInput`, for one sample `g` of the `G` key
(`true` is `GLFW_PRESS`, `false` is `GLFW_RELEASE`; `glfwGetKey` returns no
other value). -/
def gStep (g : Bool) (s : GState) : GState :=
  let s := if g && !s.gPressed then { useGamma := !s.useGamma, gPressed := true } else s
  if !g then { s with gPressed := false } else s

/-- One `gStep` per frame, over a finite sequence of samples. -/
def gRun : List Bool → GState → GState
  | [], s => s
  | g :: gs, s => gRun gs (gStep g s)

/-- Number of frames of the sequence in which `useGamma` changes. -/
def gFlips : List Bool → GState → Nat
  | [], _ => 0
  | g :: gs, s =>
    (if (gStep g s).useGamma = s.useGamma then 0 else 1) + gFlips gs (gStep g s)

/-- Lines 201-202 of `main`: the update of `static float sweep` for one sample
of the `Q` and `E` keys. -/
def sweepStep {α : Type} [LinearOrderedField α] (q e : Bool) (deltaTime sweep : α) : α :=
  let sweep := if q then sweep - 0.8 * deltaTime else sweep
  if e then sweep + 0.8 * deltaTime else sweep

/-- The sweep angle over a sequence of frames, each given by its `Q` sample,
its `E` sample and its `deltaTime`. -/
def sweepRun {α : Type} [LinearOrderedField α] : List (Bool × Bool × α) → α → α
  | [], sweep => sweep
  | (q, e, dt) :: fs, sweep => sweepRun fs (sweepStep q e dt sweep)

/-! ## Shader and draw calls -/

/-- The type `glm::mat4`, as the matrix it denotes (row index first). -/
abbrev Mat4 (α : Type) := Matrix (Fin 4) (Fin 4) α

/-- The matrix `T(v)` of the translation by `v`. -/
def translation {α : Type} [LinearOrderedField α] (v : Vec3 α) : Mat4 α :=
  !![1, 0, 0, v.x; 0, 1, 0, v.y; 0, 0, 1, v.z; 0, 0, 0, 1]

/-- The matrix `S(v)` of the scaling by `v`, component-wise. -/
def scaling {α : Type} [LinearOrderedField α] (v : Vec3 α) : Mat4 α :=
  !![v.x, 0, 0, 0; 0, v.y, 0, 0; 0, 0, v.z, 0; 0, 0, 0, 1]

/-- The function `glm::translate (m, v)`: `m` multiplied on the right by `T(v)`. -/
def translate {α : Type} [LinearOrderedField α] (m : Mat4 α) (v : Vec3 α) : Mat4 α :=
  m * translation v

/-- The function `glm::scale (m, v)`: `m` multiplied on the right by `S(v)`. -/
def scale {α : Type} [LinearOrderedField α] (m : Mat4 α) (v : Vec3 α) : Mat4 α :=
  m * scaling v

/-- The two shader programs of `main`. -/
inductive Shader where
  | lightingShader
  | lightCubeShader
deriving DecidableEq, Repr

/-- The two vertex arrays of `main` (`lightCubeVAO` is `cubeVAO`, line 174). -/
inductive VAO where
  | cubeVAO
  | planeVAO
deriving DecidableEq, Repr

/-- A value passed to one of the `set...` methods of a shader. -/
inductive UVal (α : Type) where
  | bool (b : Bool)
  | int (n : Int)
  | float (x : α)
  | vec3 (v : Vec3 α)
  | mat4 (m : Mat4 α)

/-- The calls of a frame that the trace records: the methods of the two shader
objects, `glBindVertexArray` and `glDrawArrays (GL_TRIANGLES, first, count)`. -/
inductive Call (α : Type) where
  | use (s : Shader)
  | set (s : Shader) (name : String) (v : UVal α)
  | bindVertexArray (v : VAO)
  | drawArrays (first count : Nat)

/-- The part of `Camera` (learnopengl/camera.h) that `main` reads. -/
structure Camera (α : Type) where
  Position : Vec3 α
  Front : Vec3 α
  Zoom : α

/-- The direction argument of `Camera::ProcessKeyboard`. -/
inductive CameraMovement where
  | FORWARD
  | BACKWARD
  | LEFT
  | RIGHT
deriving DecidableEq, Repr

/-- The library functions the frame calls and whose code is outside this
repository (libm, glm, learnopengl/camera.h), taken as parameters. -/
structure Extern (α : Type) where
  sin : α → α
  cos : α → α
  radians : α → α
  two_pi : α
  normalize : (Fin 4 → α) → (Fin 4 → α)
  rotate : Mat4 α → α → Vec3 α → Mat4 α
  perspective : α → α → α → α → Mat4 α
  getViewMatrix : Camera α → Mat4 α
  processKeyboard : Camera α → CameraMovement → α → Camera α

/-- One sample of the keys the frame polls with `glfwGetKey`
(`true` is `GLFW_PRESS`). -/
structure Keys where
  escape : Bool
  w : Bool
  s : Bool
  a : Bool
  d : Bool
  k1 : Bool
  k2 : Bool
  k3 : Bool
  k4 : Bool
  b : Bool
  p : Bool
  t : Bool
  y : Bool
  g : Bool
  q : Bool
  e : Bool
deriving DecidableEq, Repr

/-- The variables that live across frames: the globals of the file, the two
function-local statics (`gPressed`, `sweep`) and the close flag of the window. -/
structure AppState (α : Type) where
  camera : Camera α
  deltaTime : α
  lastFrame : α
  currentMode : Int
  useBlinn : Bool
  useToon : Bool
  useGamma : Bool
  gPressed : Bool
  sweep : α
  shouldClose : Bool

/-- The function `processInput` (lines 308-329). -/
def processInput {α : Type} (ext : Extern α) (keys : Keys) (st : AppState α) : AppState α :=
  let st := if keys.escape then { st with shouldClose := true } else st
  let st := if keys.w then
    { st with camera := ext.processKeyboard st.camera .FORWARD st.deltaTime } else st
  let st := if keys.s then
    { st with camera := ext.processKeyboard st.camera .BACKWARD st.deltaTime } else st
  let st := if keys.a then
    { st with camera := ext.processKeyboard st.camera .LEFT st.deltaTime } else st
  let st := if keys.d then
    { st with camera := ext.processKeyboard st.camera .RIGHT st.deltaTime } else st
  let st := if keys.k1 then { st with currentMode := 1 } else st
  let st := if keys.k2 then { st with currentMode := 2 } else st
  let st := if keys.k3 then { st with currentMode := 3 } else st
  let st := if keys.k4 then { st with currentMode := 4 } else st
  let st := if keys.b then { st with useBlinn := true } else st
  let st := if keys.p then { st with useBlinn := false } else st
  let st := if keys.t then { st with useToon := true } else st
  let st := if keys.y then { st with useToon := false } else st
  let gs := gStep keys.g { useGamma := st.useGamma, gPressed := st.gPressed }
  { st with useGamma := gs.useGamma, gPressed := gs.gPressed }

/-- The loop `for (int i = 0; i < n; i++) body`, started at counter `i` with
`count` iterations left; an iteration that fails ends the loop with `none`. -/
def forLoopFrom {σ : Type} (body : Nat → σ → Option σ) : (count : Nat) → (i : Nat) → σ → Option σ
  | 0, _, s => some s
  | count + 1, i, s => (body i s).bind (forLoopFrom body count (i + 1))

/-- The loop `for (int i = 0; i < n; i++) body`. -/
def forLoop {σ : Type} (n : Nat) (body : Nat → σ → Option σ) (s : σ) : Option σ :=
  forLoopFrom body n 0 s

/-- What the loops of a frame read and write: the local array
`glm::vec3 positions[8]`, whose entries are `none` until assigned, and the
trace of calls issued so far. -/
structure FrameSt (α : Type) where
  positions : Fin 8 → Option (Vec3 α)
  calls : List (Call α)

/-- The eight uniform writes of one iteration of the point-light loop
(lines 246-254), for the resolved position `pos` and the colour `color`. -/
def pointLightCalls {α : Type} [LinearOrderedField α] (i : Nat) (pos color : Vec3 α) :
    List (Call α) :=
  let base := "pointLights[" ++ Nat.repr i ++ "]"
  [.set .lightingShader (base ++ ".position") (.vec3 pos),
   .set .lightingShader (base ++ ".color") (.vec3 color),
   .set .lightingShader (base ++ ".constant") (.float 1.0),
   .set .lightingShader (base ++ ".linear") (.float 0.09),
   .set .lightingShader (base ++ ".quadratic") (.float 0.032),
   .set .lightingShader (base ++ ".ambient") (.vec3 ⟨0.03, 0.03, 0.03⟩),
   .set .lightingShader (base ++ ".diffuse") (.vec3 ⟨0.9, 0.9, 0.9⟩),
   .set .lightingShader (base ++ ".specular") (.vec3 ⟨1.0, 1.0, 1.0⟩)]

/-- Body of the point-light loop (lines 220-254).  The arrays have 8 entries;
an index outside them makes the iteration fail. -/
def pointLightBody {α : Type} [LinearOrderedField α] [FloorRing α] (ext : Extern α)
    (anchorTable colorTable : Fin 8 → Vec3 α) (currentMode : Int) (time : α)
    (i : Nat) (s : FrameSt α) : Option (FrameSt α) :=
  if h : i < 8 then
    let pos := resolvePos ext.sin ext.cos anchorTable currentMode time ⟨i, h⟩
    some {
      positions := Function.update s.positions ⟨i, h⟩ (some pos)
      calls := s.calls ++ pointLightCalls i pos (colorTable ⟨i, h⟩) }
  else none

/-- The calls of one iteration of the cube-ring loop (lines 276-283). -/
def ringCalls {α : Type} [LinearOrderedField α] (ext : Extern α) (time : α) (i : Nat) :
    List (Call α) :=
  let m : Mat4 α := 1
  let ang : α := (i : α) * (ext.two_pi / 12.0) + time * 0.4
  let radius : α := 3.0
  let m := translate m
    ⟨radius * ext.cos ang, 0.8 + 0.2 * ext.sin (time * 0.8 + (i : α)), radius * ext.sin ang - 2.0⟩
  let m := ext.rotate m (ang * 2.0) ⟨1.0, 0.3, 0.5⟩
  [.set .lightingShader "model" (.mat4 m),
   .set .lightingShader "material.shininess" (.float (32.0 + 16.0 * ext.sin (time + (i : α)))),
   .drawArrays 0 36]

/-- Body of the cube-ring loop (lines 275-284). -/
def ringBody {α : Type} [LinearOrderedField α] (ext : Extern α) (time : α)
    (i : Nat) (s : FrameSt α) : Option (FrameSt α) :=
  some { s with calls := s.calls ++ ringCalls ext time i }

/-- The calls of one iteration of the lamp-marker loop (lines 291-296), for
the value `p` read from `positions[i]`. -/
def lampCalls {α : Type} [LinearOrderedField α] (p : Vec3 α) : List (Call α) :=
  let m : Mat4 α := 1
  let m := translate m p
  let m := scale m ⟨0.15, 0.15, 0.15⟩
  [.set .lightCubeShader "model" (.mat4 m),
   .bindVertexArray .cubeVAO,
   .drawArrays 0 36]

/-- Body of the lamp-marker loop (lines 290-297).  Reading an entry of
`positions` that was never assigned makes the iteration fail. -/
def lampBody {α : Type} [LinearOrderedField α]
    (i : Nat) (s : FrameSt α) : Option (FrameSt α) :=
  if h : i < 8 then
    match s.positions ⟨i, h⟩ with
    | none => none
    | some p => some { s with calls := s.calls ++ lampCalls p }
  else none

/-- The window size constants `SCR_WIDTH` and `SCR_HEIGHT`. -/
def SCR_WIDTH : Nat := 1280

/-- See `SCR_WIDTH`. -/
def SCR_HEIGHT : Nat := 720

/-- The toggle, gamma and camera writes at the start of a frame and the
directional light (lines 186-197). -/
def globalCalls {α : Type} [LinearOrderedField α] (st : AppState α) : List (Call α) :=
  [.use .lightingShader,
   .set .lightingShader "useBlinn" (.bool st.useBlinn),
   .set .lightingShader "useToon" (.bool st.useToon),
   .set .lightingShader "useGamma" (.bool st.useGamma),
   .set .lightingShader "gammaValue" (.float 2.2),
   .set .lightingShader "viewPos" (.vec3 st.camera.Position),
   -- Dir light
   .set .lightingShader "dirLight.direction" (.vec3 ⟨-0.2, -1.0, -0.3⟩),
   .set .lightingShader "dirLight.ambient" (.vec3 ⟨0.02, 0.02, 0.03⟩),
   .set .lightingShader "dirLight.diffuse" (.vec3 ⟨0.3, 0.3, 0.35⟩),
   .set .lightingShader "dirLight.specular" (.vec3 ⟨0.4, 0.4, 0.45⟩)]

/-- The spotlight writes (lines 203-213), for the state whose `sweep` the
frame has already updated. -/
def spotLightCalls {α : Type} [LinearOrderedField α] (ext : Extern α) (st : AppState α) :
    List (Call α) :=
  let front : Fin 4 → α := ![st.camera.Front.x, st.camera.Front.y, st.camera.Front.z, 0.0]
  let dir := ext.normalize (Matrix.mulVec (ext.rotate 1 st.sweep ⟨0, 1, 0⟩) front)
  let spotDir : Vec3 α := ⟨dir 0, dir 1, dir 2⟩
  [.set .lightingShader "spotLight.position" (.vec3 st.camera.Position),
   .set .lightingShader "spotLight.direction" (.vec3 spotDir),
   .set .lightingShader "spotLight.cutOff" (.float (ext.cos (ext.radians 12.5))),
   .set .lightingShader "spotLight.outerCutOff" (.float (ext.cos (ext.radians 17.0))),
   .set .lightingShader "spotLight.constant" (.float 1.0),
   .set .lightingShader "spotLight.linear" (.float 0.09),
   .set .lightingShader "spotLight.quadratic" (.float 0.032),
   .set .lightingShader "spotLight.ambient" (.vec3 ⟨0.0, 0.0, 0.0⟩),
   .set .lightingShader "spotLight.diffuse" (.vec3 ⟨1.0, 1.0, 0.95⟩),
   .set .lightingShader "spotLight.specular" (.vec3 ⟨1.0, 1.0, 1.0⟩)]

/-- Lines 186-297 of the loop body, after `processInput`: the update of
`sweep` and the trace of calls, for the tables `anchorTable` and `colorTable`,
the key sample `keys` and the frame time `time`. -/
def render {α : Type} [LinearOrderedField α] [FloorRing α] (ext : Extern α)
    (anchorTable colorTable : Fin 8 → Vec3 α) (keys : Keys) (time : α)
    (st : AppState α) : Option (AppState α × List (Call α)) :=
  let calls := globalCalls st
  -- Spotlight from camera with Q/E sweep
  let st := { st with sweep := sweepStep keys.q keys.e st.deltaTime st.sweep }
  let calls := calls ++ spotLightCalls ext st
  -- Animated colored point lights (choose 6)
  let numLights : Nat := 6
  let calls := calls ++ [.set .lightingShader "numPointLights" (.int (numLights : Int))]
  let s : FrameSt α := { positions := fun _ => none, calls := calls }
  (forLoop numLights (pointLightBody ext anchorTable colorTable st.currentMode time) s).bind
  fun s =>
  let projection := ext.perspective (ext.radians st.camera.Zoom)
    ((SCR_WIDTH : α) / (SCR_HEIGHT : α)) 0.1 200.0
  let view := ext.getViewMatrix st.camera
  let s := { s with calls := s.calls ++ [
    .set .lightingShader "projection" (.mat4 projection),
    .set .lightingShader "view" (.mat4 view),
    -- ground
    .set .lightingShader "model" (.mat4 1),
    .bindVertexArray .planeVAO,
    .drawArrays 0 6,
    -- kinetic ring of cubes
    .bindVertexArray .cubeVAO] }
  (forLoop 12 (ringBody ext time) s).bind fun s =>
  -- draw lamp gizmos as small white cubes
  let s := { s with calls := s.calls ++ [
    .use .lightCubeShader,
    .set .lightCubeShader "projection" (.mat4 projection),
    .set .lightCubeShader "view" (.mat4 view)] }
  (forLoop 6 lampBody s).bind fun s =>
  some (st, s.calls)

/-- One iteration of the render loop (lines 178-297): the new values of the
variables that live across frames and the trace of calls, for the tables
`anchorTable` and `colorTable`, the key sample `keys` and the value
`glfwTime` of `glfwGetTime ()`. -/
def frame {α : Type} [LinearOrderedField α] [FloorRing α] (ext : Extern α)
    (anchorTable colorTable : Fin 8 → Vec3 α) (keys : Keys) (glfwTime : α)
    (st : AppState α) : Option (AppState α × List (Call α)) :=
  let time := glfwTime
  let st := { st with deltaTime := time - st.lastFrame }
  let st := { st with lastFrame := time }
  let st := processInput ext keys st
  render ext anchorTable colorTable keys time st

/-- The uniform writes of a trace that go to shader `sh`, in order. -/
def uniformWrites {α : Type} (sh : Shader) (tr : List (Call α)) : List (String × UVal α) :=
  tr.filterMap fun c =>
    match c with
    | .set s name v => if s = sh then some (name, v) else none
    | _ => none

/-- The names of the uniform writes of a trace that go to shader `sh`. -/
def uniformNames {α : Type} (sh : Shader) (tr : List (Call α)) : List String :=
  (uniformWrites sh tr).map Prod.fst

/-- The integer values a trace writes to shader `sh` under the name `name`. -/
def intWrites {α : Type} (sh : Shader) (name : String) (tr : List (Call α)) : List Int :=
  tr.filterMap fun c =>
    match c with
    | .set s n (.int k) => if s = sh ∧ n = name then some k else none
    | _ => none

/-- The vectors a trace writes to shader `sh` under the name `name`. -/
def vec3Writes {α : Type} (sh : Shader) (name : String) (tr : List (Call α)) : List (Vec3 α) :=
  tr.filterMap fun c =>
    match c with
    | .set s n (.vec3 v) => if s = sh ∧ n = name then some v else none
    | _ => none

/-- The matrices a trace writes to shader `sh` under the name `name`. -/
def mat4Writes {α : Type} (sh : Shader) (name : String) (tr : List (Call α)) : List (Mat4 α) :=
  tr.filterMap fun c =>
    match c with
    | .set s n (.mat4 m) => if s = sh ∧ n = name then some m else none
    | _ => none

/-- Whether the string `p` starts the string `n`. -/
def startsWith (p n : String) : Bool :=
  p.toList.isPrefixOf n.toList

/-! ## The trace of a frame, spelled out -/

/-- The names of the eight writes of point-light block `i` under the scheme
`pointLights[i].<field>`. -/
def blockNames (i : Nat) : List String :=
  [".position", ".color", ".constant", ".linear", ".quadratic", ".ambient", ".diffuse",
    ".specular"].map fun field => "pointLights[" ++ Nat.repr i ++ "]" ++ field

/-- The names of the uniform writes a frame issues to the lighting shader, in
order. -/
def litNames : List String :=
  ["useBlinn", "useToon", "useGamma", "gammaValue", "viewPos",
   "dirLight.direction", "dirLight.ambient", "dirLight.diffuse", "dirLight.specular",
   "spotLight.position", "spotLight.direction", "spotLight.cutOff", "spotLight.outerCutOff",
   "spotLight.constant", "spotLight.linear", "spotLight.quadratic",
   "spotLight.ambient", "spotLight.diffuse", "spotLight.specular",
   "numPointLights"]
  ++ (blockNames 0 ++ blockNames 1 ++ blockNames 2 ++ blockNames 3 ++ blockNames 4 ++ blockNames 5)
  ++ ["projection", "view", "model"]
  ++ (List.replicate 12 ["model", "material.shininess"]).flatten

/-- The state `render` returns: only `sweep` changes. -/
def renderState {α : Type} [LinearOrderedField α] (keys : Keys) (st : AppState α) : AppState α :=
  { st with sweep := sweepStep keys.q keys.e st.deltaTime st.sweep }

/-- The part of the trace of `render` that runs under the lighting shader
(lines 186-284), with the two loops unrolled. -/
def lightingTrace {α : Type} [LinearOrderedField α] [FloorRing α] (ext : Extern α)
    (anchorTable colorTable : Fin 8 → Vec3 α) (keys : Keys) (time : α)
    (st : AppState α) : List (Call α) :=
  globalCalls st ++ spotLightCalls ext (renderState keys st) ++
  [.set .lightingShader "numPointLights" (.int 6)] ++
  (pointLightCalls 0 (resolvePos ext.sin ext.cos anchorTable st.currentMode time ⟨0, by decide⟩)
    (colorTable ⟨0, by decide⟩) ++
  pointLightCalls 1 (resolvePos ext.sin ext.cos anchorTable st.currentMode time ⟨1, by decide⟩)
    (colorTable ⟨1, by decide⟩) ++
  pointLightCalls 2 (resolvePos ext.sin ext.cos anchorTable st.currentMode time ⟨2, by decide⟩)
    (colorTable ⟨2, by decide⟩) ++
  pointLightCalls 3 (resolvePos ext.sin ext.cos anchorTable st.currentMode time ⟨3, by decide⟩)
    (colorTable ⟨3, by decide⟩) ++
  pointLightCalls 4 (resolvePos ext.sin ext.cos anchorTable st.currentMode time ⟨4, by decide⟩)
    (colorTable ⟨4, by decide⟩) ++
  pointLightCalls 5 (resolvePos ext.sin ext.cos anchorTable st.currentMode time ⟨5, by decide⟩)
    (colorTable ⟨5, by decide⟩)) ++
  [.set .lightingShader "projection" (.mat4 (ext.perspective (ext.radians st.camera.Zoom)
      ((SCR_WIDTH : α) / (SCR_HEIGHT : α)) 0.1 200.0)),
   .set .lightingShader "view" (.mat4 (ext.getViewMatrix st.camera)),
   .set .lightingShader "model" (.mat4 1),
   .bindVertexArray .planeVAO,
   .drawArrays 0 6,
   .bindVertexArray .cubeVAO] ++
  (ringCalls ext time 0 ++
  ringCalls ext time 1 ++
  ringCalls ext time 2 ++
  ringCalls ext time 3 ++
  ringCalls ext time 4 ++
  ringCalls ext time 5 ++
  ringCalls ext time 6 ++
  ringCalls ext time 7 ++
  ringCalls ext time 8 ++
  ringCalls ext time 9 ++
  ringCalls ext time 10 ++
  ringCalls ext time 11)

/-- The trace `render` returns, with the three loops unrolled: the lighting
part, then the lamp markers (lines 287-297). -/
def renderTrace {α : Type} [LinearOrderedField α] [FloorRing α] (ext : Extern α)
    (anchorTable colorTable : Fin 8 → Vec3 α) (keys : Keys) (time : α)
    (st : AppState α) : List (Call α) :=
  lightingTrace ext anchorTable colorTable keys time st ++
  [.use .lightCubeShader,
   .set .lightCubeShader "projection" (.mat4 (ext.perspective (ext.radians st.camera.Zoom)
      ((SCR_WIDTH : α) / (SCR_HEIGHT : α)) 0.1 200.0)),
   .set .lightCubeShader "view" (.mat4 (ext.getViewMatrix st.camera))] ++
  (lampCalls (resolvePos ext.sin ext.cos anchorTable st.currentMode time ⟨0, by decide⟩) ++
  lampCalls (resolvePos ext.sin ext.cos anchorTable st.currentMode time ⟨1, by decide⟩) ++
  lampCalls (resolvePos ext.sin ext.cos anchorTable st.currentMode time ⟨2, by decide⟩) ++
  lampCalls (resolvePos ext.sin ext.cos anchorTable st.currentMode time ⟨3, by decide⟩) ++
  lampCalls (resolvePos ext.sin ext.cos anchorTable st.currentMode time ⟨4, by decide⟩) ++
  lampCalls (resolvePos ext.sin ext.cos anchorTable st.currentMode time ⟨5, by decide⟩))

/-! ## The spec's reading of the debounce -/

/-- The maximal runs of equal consecutive samples of a sequence, in order,
each as its sample value and its length. -/
def runs : List Bool → List (Bool × Nat)
  | [] => []
  | b :: bs =>
    match runs bs with
    | [] => [(b, 1)]
    | (c, n) :: rest => if b = c then (c, n + 1) :: rest else (b, 1) :: (c, n) :: rest

/-- The number of maximal runs of consecutive pressed samples. -/
def pressedRuns (samples : List Bool) : Nat :=
  ((runs samples).filter fun r => r.1).length

/-! ## Lemmas -/

/-- A released sample clears `gPressed` and leaves `useGamma`. -/
theorem gStep_released (s : GState) :
    gStep false s = { useGamma := s.useGamma, gPressed := false } := by
  simp [gStep]

/-- A pressed sample after a released one flips `useGamma`. -/
theorem gStep_pressed_idle (u : Bool) :
    gStep true { useGamma := u, gPressed := false } = { useGamma := !u, gPressed := true } := by
  simp [gStep]

/-- A pressed sample after a pressed one changes nothing. -/
theorem gStep_pressed_held (u : Bool) :
    gStep true { useGamma := u, gPressed := true } = { useGamma := u, gPressed := true } := by
  simp [gStep]

/-- The first run of a sequence carries the value of its first sample. -/
theorem runs_cons_head (b : Bool) (bs : List Bool) :
    ∃ n rest, runs (b :: bs) = (b, n) :: rest := by
  simp only [runs]
  cases h : runs bs with
  | nil => exact ⟨1, [], rfl⟩
  | cons r rest =>
    obtain ⟨c, n⟩ := r
    by_cases hbc : b = c
    · subst hbc; exact ⟨n + 1, rest, by simp⟩
    · exact ⟨1, (c, n) :: rest, by simp [hbc]⟩

/-- A sample in front of a sequence extends its first run or opens a new one. -/
theorem runs_cons_of (b c : Bool) (n : Nat) (rest : List (Bool × Nat)) (bs : List Bool)
    (h : runs bs = (c, n) :: rest) :
    runs (b :: bs) = if b = c then (c, n + 1) :: rest else (b, 1) :: (c, n) :: rest := by
  rw [runs, h]

/-- The empty sequence has no run. -/
theorem pressedRuns_nil : pressedRuns [] = 0 := rfl

/-- A released sample in front adds no pressed run. -/
theorem pressedRuns_released (bs : List Bool) : pressedRuns (false :: bs) = pressedRuns bs := by
  cases bs with
  | nil => rfl
  | cons c cs =>
    obtain ⟨n, rest, h⟩ := runs_cons_head c cs
    rw [pressedRuns, pressedRuns, runs_cons_of false c n rest _ h, h]
    cases c <;> simp

/-- A pressed sample in front of a pressed one extends its run. -/
theorem pressedRuns_pressed_pressed (bs : List Bool) :
    pressedRuns (true :: true :: bs) = pressedRuns (true :: bs) := by
  obtain ⟨n, rest, h⟩ := runs_cons_head true bs
  rw [pressedRuns, pressedRuns, runs_cons_of true true n rest _ h, h]
  simp

/-- A pressed sample in front of a released one opens a new pressed run. -/
theorem pressedRuns_pressed_released (bs : List Bool) :
    pressedRuns (true :: false :: bs) = pressedRuns bs + 1 := by
  obtain ⟨n, rest, h⟩ := runs_cons_head false bs
  rw [← pressedRuns_released bs, pressedRuns, pressedRuns, runs_cons_of true false n rest _ h, h]
  simp

/-- A single pressed sample is one pressed run. -/
theorem pressedRuns_pressed_nil : pressedRuns [true] = 1 := rfl

/-- Flips and final value of `useGamma` from `gPressed = false`, for a sequence
and for the same sequence after one more pressed sample in front. -/
theorem gFlips_gRun_aux (bs : List Bool) : ∀ u : Bool,
    (gFlips bs ⟨u, false⟩ = pressedRuns bs ∧
     (gRun bs ⟨u, false⟩).useGamma = (if pressedRuns bs % 2 = 0 then u else !u)) ∧
    (gFlips (true :: bs) ⟨u, false⟩ = pressedRuns (true :: bs) ∧
     (gRun (true :: bs) ⟨u, false⟩).useGamma
        = (if pressedRuns (true :: bs) % 2 = 0 then u else !u)) := by
  induction bs with
  | nil =>
    intro u
    simp [gFlips, gRun, pressedRuns_nil, pressedRuns_pressed_nil, gStep_pressed_idle]
  | cons b bs ih =>
    intro u
    cases b with
    | false =>
      have h1 := (ih u).1
      have h2 := (ih (!u)).1
      refine ⟨?_, ?_⟩
      · simpa [gFlips, gRun, gStep_released, pressedRuns_released] using h1
      · simp only [gFlips, gRun, gStep_released, gStep_pressed_idle,
          pressedRuns_pressed_released]
        rw [h2.1, h2.2]
        constructor
        · simp; omega
        · by_cases hp : pressedRuns bs % 2 = 0
          · have : (pressedRuns bs + 1) % 2 ≠ 0 := by omega
            simp [hp, this]
          · have : (pressedRuns bs + 1) % 2 = 0 := by omega
            simp [hp, this]
    | true =>
      have h1 := (ih u).2
      refine ⟨h1, ?_⟩
      have e1 : gFlips (true :: true :: bs) ⟨u, false⟩ = gFlips (true :: bs) ⟨u, false⟩ := by
        simp [gFlips, gStep_pressed_idle, gStep_pressed_held]
      have e2 : gRun (true :: true :: bs) ⟨u, false⟩ = gRun (true :: bs) ⟨u, false⟩ := by
        simp [gRun, gStep_pressed_idle, gStep_pressed_held]
      rw [e1, e2, pressedRuns_pressed_pressed]
      exact h1

/-- The sweep angle after the frames `xs ++ ys` is the one after `ys`, started
from the angle after `xs`. -/
theorem sweepRun_append {α : Type} [LinearOrderedField α] (xs ys : List (Bool × Bool × α))
    (sweep : α) : sweepRun (xs ++ ys) sweep = sweepRun ys (sweepRun xs sweep) := by
  induction xs generalizing sweep with
  | nil => rfl
  | cons f fs ih =>
    obtain ⟨q, e, dt⟩ := f
    simp only [List.cons_append, sweepRun]
    exact ih _

/-- Frame `k` of a sequence takes the sweep angle through one `sweepStep`. -/
theorem sweepRun_take_succ {α : Type} [LinearOrderedField α] (frames : List (Bool × Bool × α)) :
    ∀ (sweep0 : α) (k : Nat) (q e : Bool) (dt : α), frames.get? k = some (q, e, dt) →
      sweepRun (frames.take (k + 1)) sweep0
        = sweepStep q e dt (sweepRun (frames.take k) sweep0) := by
  induction frames with
  | nil => intro sweep0 k q e dt h; simp at h
  | cons f fs ih =>
    intro sweep0 k q e dt h
    cases k with
    | zero =>
      simp only [List.get?_cons_zero, Option.some.injEq] at h
      subst h
      simp [sweepRun]
    | succ k =>
      obtain ⟨q1, e1, dt1⟩ := f
      simp only [List.get?_cons_succ] at h
      simp only [List.take_succ_cons, sweepRun]
      exact ih _ k q e dt h

/-- Components of a sum of vectors. -/
@[simp] theorem Vec3.add_def {α : Type} [Add α] (a b : Vec3 α) :
    a + b = { x := a.x + b.x, y := a.y + b.y, z := a.z + b.z } := rfl

/-- The motion switch in Orbit mode. -/
theorem motionStep_orbit {α : Type} [LinearOrderedField α] [FloorRing α] (sin cos : α → α)
    (time : α) (i : Nat) (pos : Vec3 α) :
    motionStep sin cos 1 time i pos =
      { x := pos.x + (0.6 + 0.2 * (i : α)) * sin (time * 0.9 + (i : α)),
        y := pos.y + 0.2 * sin (time * 1.3 + (i : α) * 0.7),
        z := pos.z + (0.6 + 0.2 * (i : α)) * cos (time * 1.1 + 0.5 * (i : α)) } := by
  simp only [motionStep, if_true]

/-- The motion switch in Pendulum mode. -/
theorem motionStep_pendulum {α : Type} [LinearOrderedField α] [FloorRing α] (sin cos : α → α)
    (time : α) (i : Nat) (pos : Vec3 α) :
    motionStep sin cos 2 time i pos =
      pos + { x := sin (sin (time * 1.2 + (i : α)) * 0.6) * (1.0 + 0.2 * (i : α)),
              y := -|sin (sin (time * 1.2 + (i : α)) * 0.6)| * 0.2 + 0.6,
              z := 0.0 } := by
  have h : ¬ ((2 : Int) = 1) := by decide
  simp only [motionStep, h, if_false, if_true]

/-- The motion switch in Spiral mode. -/
theorem motionStep_spiral {α : Type} [LinearOrderedField α] [FloorRing α] (sin cos : α → α)
    (time : α) (i : Nat) (pos : Vec3 α) :
    motionStep sin cos 3 time i pos =
      { x := (0.8 + 0.25 * (i : α)) * cos (time * 1.0 + (i : α)) + 0,
        y := 1.0 + spiralH time i + 0,
        z := (0.8 + 0.25 * (i : α)) * sin (time * 1.0 + (i : α)) + -2.0 } := by
  have h1 : ¬ ((3 : Int) = 1) := by decide
  have h2 : ¬ ((3 : Int) = 2) := by decide
  simp only [motionStep, h1, h2, if_false, if_true, Vec3.add_def]

/-- The motion switch in Swarm mode. -/
theorem motionStep_swarm {α : Type} [LinearOrderedField α] [FloorRing α] (sin cos : α → α)
    (time : α) (i : Nat) (pos : Vec3 α) :
    motionStep sin cos 4 time i pos =
      pos + { x := 0.4 * sin (time * 1.7 + (i : α) * 1.1),
              y := 0.3 * sin (time * 2.3 + (i : α) * 0.9),
              z := 0.4 * cos (time * 1.5 + (i : α) * 1.3) } := by
  have h1 : ¬ ((4 : Int) = 1) := by decide
  have h2 : ¬ ((4 : Int) = 2) := by decide
  have h3 : ¬ ((4 : Int) = 3) := by decide
  simp only [motionStep, h1, h2, h3, if_false, if_true]

/-- On a non-negative dividend and a positive divisor `fmod` lies in `[0, y)`. -/
theorem fmod_range {α : Type} [LinearOrderedField α] [FloorRing α] (x y : α)
    (hx : 0 ≤ x) (hy : 0 < y) : 0 ≤ fmod x y ∧ fmod x y < y := by
  have hq : 0 ≤ x / y := div_nonneg hx hy.le
  have e : fmod x y = y * Int.fract (x / y) := by
    unfold fmod
    rw [if_pos hq, Int.fract]
    field_simp
  rw [e]
  constructor
  · exact mul_nonneg hy.le (Int.fract_nonneg _)
  · calc y * Int.fract (x / y) < y * 1 := mul_lt_mul_of_pos_left (Int.fract_lt_one _) hy
      _ = y := mul_one y

/-- On a non-negative dividend below the divisor `fmod` returns the dividend. -/
theorem fmod_of_lt {α : Type} [LinearOrderedField α] [FloorRing α] (x y : α)
    (hx : 0 ≤ x) (hxy : x < y) : fmod x y = x := by
  have hy : 0 < y := lt_of_le_of_lt hx hxy
  have hq : 0 ≤ x / y := div_nonneg hx hy.le
  have hf : ⌊x / y⌋ = 0 := by
    rw [Int.floor_eq_iff]
    constructor
    · simpa using hq
    · simpa using (div_lt_one hy).mpr hxy
  unfold fmod
  rw [if_pos hq, hf]
  simp

/-- On a non-negative dividend and a positive divisor, adding the divisor to
the dividend does not change `fmod`. -/
theorem fmod_add_divisor {α : Type} [LinearOrderedField α] [FloorRing α] (x y : α)
    (hx : 0 ≤ x) (hy : 0 < y) : fmod (x + y) y = fmod x y := by
  have hq : 0 ≤ x / y := div_nonneg hx hy.le
  have hq2 : 0 ≤ (x + y) / y := div_nonneg (by linarith) hy.le
  have e : (x + y) / y = x / y + 1 := by field_simp
  unfold fmod
  rw [if_pos hq, if_pos hq2, e, Int.floor_add_one]
  push_cast
  ring

/-- The point-light loop with `numLights = 6` runs its six iterations: it
assigns `positions[0..5]` and appends the six blocks of writes. -/
theorem pointLight_loop {α : Type} [LinearOrderedField α] [FloorRing α] (ext : Extern α)
    (anchorTable colorTable : Fin 8 → Vec3 α) (currentMode : Int) (time : α) (s : FrameSt α) :
    forLoop 6 (pointLightBody ext anchorTable colorTable currentMode time) s = some
      { positions :=
          Function.update (Function.update (Function.update (Function.update (Function.update (Function.update (s.positions)
          ⟨0, by decide⟩ (some (resolvePos ext.sin ext.cos anchorTable currentMode time ⟨0, by decide⟩)))
          ⟨1, by decide⟩ (some (resolvePos ext.sin ext.cos anchorTable currentMode time ⟨1, by decide⟩)))
          ⟨2, by decide⟩ (some (resolvePos ext.sin ext.cos anchorTable currentMode time ⟨2, by decide⟩)))
          ⟨3, by decide⟩ (some (resolvePos ext.sin ext.cos anchorTable currentMode time ⟨3, by decide⟩)))
          ⟨4, by decide⟩ (some (resolvePos ext.sin ext.cos anchorTable currentMode time ⟨4, by decide⟩)))
          ⟨5, by decide⟩ (some (resolvePos ext.sin ext.cos anchorTable currentMode time ⟨5, by decide⟩))
        calls := s.calls ++ (
          pointLightCalls 0 (resolvePos ext.sin ext.cos anchorTable currentMode time ⟨0, by decide⟩)
            (colorTable ⟨0, by decide⟩) ++
          pointLightCalls 1 (resolvePos ext.sin ext.cos anchorTable currentMode time ⟨1, by decide⟩)
            (colorTable ⟨1, by decide⟩) ++
          pointLightCalls 2 (resolvePos ext.sin ext.cos anchorTable currentMode time ⟨2, by decide⟩)
            (colorTable ⟨2, by decide⟩) ++
          pointLightCalls 3 (resolvePos ext.sin ext.cos anchorTable currentMode time ⟨3, by decide⟩)
            (colorTable ⟨3, by decide⟩) ++
          pointLightCalls 4 (resolvePos ext.sin ext.cos anchorTable currentMode time ⟨4, by decide⟩)
            (colorTable ⟨4, by decide⟩) ++
          pointLightCalls 5 (resolvePos ext.sin ext.cos anchorTable currentMode time ⟨5, by decide⟩)
            (colorTable ⟨5, by decide⟩)) } := by
  simp [forLoop, forLoopFrom, pointLightBody]

/-- The cube-ring loop runs its twelve iterations. -/
theorem ring_loop {α : Type} [LinearOrderedField α] (ext : Extern α) (time : α) (s : FrameSt α) :
    forLoop 12 (ringBody ext time) s = some
      { s with calls := s.calls ++ (ringCalls ext time 0 ++ ringCalls ext time 1 ++ ringCalls ext time 2 ++ ringCalls ext time 3 ++ ringCalls ext time 4 ++ ringCalls ext time 5 ++ ringCalls ext time 6 ++ ringCalls ext time 7 ++ ringCalls ext time 8 ++ ringCalls ext time 9 ++ ringCalls ext time 10 ++ ringCalls ext time 11) } := by
  simp [forLoop, forLoopFrom, ringBody]

/-- The lamp-marker loop runs its six iterations when `positions[0..5]` are
assigned. -/
theorem lamp_loop {α : Type} [LinearOrderedField α] (s : FrameSt α) (p : Fin 8 → Vec3 α)
    (hp : ∀ k : Fin 8, k.val < 6 → s.positions k = some (p k)) :
    forLoop 6 lampBody s = some
      { s with calls := s.calls ++ (lampCalls (p ⟨0, by decide⟩) ++ lampCalls (p ⟨1, by decide⟩) ++ lampCalls (p ⟨2, by decide⟩) ++ lampCalls (p ⟨3, by decide⟩) ++ lampCalls (p ⟨4, by decide⟩) ++ lampCalls (p ⟨5, by decide⟩)) } := by
  have h0 : s.positions 0 = some (p 0) := hp 0 (by decide)
  have h1 : s.positions 1 = some (p 1) := hp 1 (by decide)
  have h2 : s.positions 2 = some (p 2) := hp 2 (by decide)
  have h3 : s.positions 3 = some (p 3) := hp 3 (by decide)
  have h4 : s.positions 4 = some (p 4) := hp 4 (by decide)
  have h5 : s.positions 5 = some (p 5) := hp 5 (by decide)
  simp [forLoop, forLoopFrom, lampBody, h0, h1, h2, h3, h4, h5]


/-- The entries of `positions` after the point-light loop. -/
theorem pointLight_loop_positions {α : Type} [LinearOrderedField α] [FloorRing α] (ext : Extern α)
    (anchorTable colorTable : Fin 8 → Vec3 α) (currentMode : Int) (time : α)
    (calls : List (Call α)) :
    ∃ s, forLoop 6 (pointLightBody ext anchorTable colorTable currentMode time)
        { positions := fun _ => none, calls := calls } = some s ∧
      ∀ k : Fin 8, s.positions k =
        if k.val < 6 then some (resolvePos ext.sin ext.cos anchorTable currentMode time k)
        else none := by
  refine ⟨_, pointLight_loop ext anchorTable colorTable currentMode time _, ?_⟩
  intro k
  fin_cases k <;> simp [Function.update]


/-- The result of `render`: the state with the new `sweep` and the unrolled
trace. -/
theorem render_eq {α : Type} [LinearOrderedField α] [FloorRing α] (ext : Extern α)
    (anchorTable colorTable : Fin 8 → Vec3 α) (keys : Keys) (time : α) (st : AppState α) :
    render ext anchorTable colorTable keys time st
      = some (renderState keys st, renderTrace ext anchorTable colorTable keys time st) := by
  unfold render
  simp only [pointLight_loop, Option.some_bind, ring_loop]
  rw [lamp_loop _ (resolvePos ext.sin ext.cos anchorTable st.currentMode time)]
  · simp [renderTrace, lightingTrace, renderState]
  · intro k hk
    fin_cases k <;> simp [Function.update] at hk ⊢

/-- The result of a frame: `processInput` on the state with the new timing,
then `render`. -/
theorem frame_eq {α : Type} [LinearOrderedField α] [FloorRing α] (ext : Extern α)
    (anchorTable colorTable : Fin 8 → Vec3 α) (keys : Keys) (glfwTime : α) (st : AppState α) :
    frame ext anchorTable colorTable keys glfwTime st
      = some (renderState keys (processInput ext keys
                { st with deltaTime := glfwTime - st.lastFrame, lastFrame := glfwTime }),
              renderTrace ext anchorTable colorTable keys glfwTime (processInput ext keys
                { st with deltaTime := glfwTime - st.lastFrame, lastFrame := glfwTime })) := by
  unfold frame
  exact render_eq ext anchorTable colorTable keys glfwTime _

/-- The writes of a concatenation of traces. -/
theorem uniformNames_append {α : Type} (sh : Shader) (xs ys : List (Call α)) :
    uniformNames sh (xs ++ ys) = uniformNames sh xs ++ uniformNames sh ys := by
  simp [uniformNames, uniformWrites, List.filterMap_append]

/-- The integer writes of a concatenation of traces. -/
theorem intWrites_append {α : Type} (sh : Shader) (name : String) (xs ys : List (Call α)) :
    intWrites sh name (xs ++ ys) = intWrites sh name xs ++ intWrites sh name ys := by
  simp [intWrites, List.filterMap_append]

/-- The vector writes of a concatenation of traces. -/
theorem vec3Writes_append {α : Type} (sh : Shader) (name : String) (xs ys : List (Call α)) :
    vec3Writes sh name (xs ++ ys) = vec3Writes sh name xs ++ vec3Writes sh name ys := by
  simp [vec3Writes, List.filterMap_append]

/-- The matrix writes of a concatenation of traces. -/
theorem mat4Writes_append {α : Type} (sh : Shader) (name : String) (xs ys : List (Call α)) :
    mat4Writes sh name (xs ++ ys) = mat4Writes sh name xs ++ mat4Writes sh name ys := by
  simp [mat4Writes, List.filterMap_append]

/-- The names one iteration of the point-light loop writes. -/
theorem uniformNames_pointLightCalls {α : Type} [LinearOrderedField α] (i : Nat)
    (pos color : Vec3 α) :
    uniformNames .lightingShader (pointLightCalls i pos color) = blockNames i := by
  simp [uniformNames, uniformWrites, pointLightCalls, blockNames]

/-- The names one iteration of the cube-ring loop writes. -/
theorem uniformNames_ringCalls {α : Type} [LinearOrderedField α] (ext : Extern α) (time : α)
    (i : Nat) :
    uniformNames .lightingShader (ringCalls ext time i) = ["model", "material.shininess"] := by
  simp [uniformNames, uniformWrites, ringCalls]

/-- The lamp-marker loop writes nothing to the lighting shader. -/
theorem uniformNames_lampCalls {α : Type} [LinearOrderedField α] (p : Vec3 α) :
    uniformNames .lightingShader (lampCalls p) = [] := by
  simp [uniformNames, uniformWrites, lampCalls]

/-- The names of the uniform writes of a frame to the lighting shader. -/
theorem uniformNames_renderTrace {α : Type} [LinearOrderedField α] [FloorRing α] (ext : Extern α)
    (anchorTable colorTable : Fin 8 → Vec3 α) (keys : Keys) (time : α) (st : AppState α) :
    uniformNames .lightingShader (renderTrace ext anchorTable colorTable keys time st)
      = litNames := by
  simp only [renderTrace, lightingTrace, uniformNames_append, uniformNames_pointLightCalls,
    uniformNames_ringCalls, uniformNames_lampCalls]
  simp [uniformNames, uniformWrites, globalCalls, spotLightCalls, litNames, List.replicate]

/-- The only integer written under `numPointLights` in a frame is 6. -/
theorem intWrites_renderTrace {α : Type} [LinearOrderedField α] [FloorRing α] (ext : Extern α)
    (anchorTable colorTable : Fin 8 → Vec3 α) (keys : Keys) (time : α) (st : AppState α) :
    intWrites .lightingShader "numPointLights"
      (renderTrace ext anchorTable colorTable keys time st) = [6] := by
  simp [renderTrace, lightingTrace, intWrites, globalCalls, spotLightCalls, pointLightCalls, ringCalls,
    lampCalls]

/-- Facts about the names of a frame, by evaluation. -/
theorem litNames_count : litNames.count "numPointLights" = 1 := by decide

/-- See `litNames_count`. -/
theorem litNames_blocks :
    litNames.filter (startsWith "pointLights[")
      = blockNames 0 ++ blockNames 1 ++ blockNames 2 ++ blockNames 3 ++ blockNames 4
          ++ blockNames 5 := by
  decide

/-- See `litNames_count`. -/
theorem litNames_no_stale :
    ∀ n ∈ litNames, startsWith "pointLights[6]" n = false ∧
      startsWith "pointLights[7]" n = false := by
  decide

/-- The vector a frame writes under `pointLights[i].position`, `i < 6`, is
the resolved position of light `i`, and it is written once. -/
theorem vec3Writes_renderTrace {α : Type} [LinearOrderedField α] [FloorRing α] (ext : Extern α)
    (anchorTable colorTable : Fin 8 → Vec3 α) (keys : Keys) (time : α) (st : AppState α)
    (i : Fin 6) :
    vec3Writes .lightingShader ("pointLights[" ++ Nat.repr i.val ++ "]" ++ ".position")
      (renderTrace ext anchorTable colorTable keys time st)
      = [resolvePos ext.sin ext.cos anchorTable st.currentMode time (Fin.castLE (by decide) i)] := by
  fin_cases i <;>
    simp [renderTrace, lightingTrace, vec3Writes, globalCalls, spotLightCalls, pointLightCalls, ringCalls,
      lampCalls] <;> rfl

/-- The model matrices a frame writes to the lamp shader, in order. -/
theorem mat4Writes_renderTrace {α : Type} [LinearOrderedField α] [FloorRing α] (ext : Extern α)
    (anchorTable colorTable : Fin 8 → Vec3 α) (keys : Keys) (time : α) (st : AppState α) :
    mat4Writes .lightCubeShader "model" (renderTrace ext anchorTable colorTable keys time st)
      = [translation (resolvePos ext.sin ext.cos anchorTable st.currentMode time ⟨0, by decide⟩)
           * scaling ⟨0.15, 0.15, 0.15⟩,
         translation (resolvePos ext.sin ext.cos anchorTable st.currentMode time ⟨1, by decide⟩)
           * scaling ⟨0.15, 0.15, 0.15⟩,
         translation (resolvePos ext.sin ext.cos anchorTable st.currentMode time ⟨2, by decide⟩)
           * scaling ⟨0.15, 0.15, 0.15⟩,
         translation (resolvePos ext.sin ext.cos anchorTable st.currentMode time ⟨3, by decide⟩)
           * scaling ⟨0.15, 0.15, 0.15⟩,
         translation (resolvePos ext.sin ext.cos anchorTable st.currentMode time ⟨4, by decide⟩)
           * scaling ⟨0.15, 0.15, 0.15⟩,
         translation (resolvePos ext.sin ext.cos anchorTable st.currentMode time ⟨5, by decide⟩)
           * scaling ⟨0.15, 0.15, 0.15⟩] := by
  simp [renderTrace, lightingTrace, mat4Writes, globalCalls, spotLightCalls, pointLightCalls, ringCalls,
    lampCalls, translate, scale]

/-- The trace of `render` ends with the lamp section: the lamp shader is
activated, gets `projection` and `view`, and then each marker is the write of
its model matrix, the binding of the cube and the draw of its 36 vertices. -/
theorem renderTrace_lamp_section {α : Type} [LinearOrderedField α] [FloorRing α]
    (ext : Extern α) (anchorTable colorTable : Fin 8 → Vec3 α) (keys : Keys) (time : α)
    (st : AppState α) :
    renderTrace ext anchorTable colorTable keys time st
      = lightingTrace ext anchorTable colorTable keys time st ++
        [.use .lightCubeShader,
         .set .lightCubeShader "projection" (.mat4 (ext.perspective (ext.radians st.camera.Zoom)
            ((SCR_WIDTH : α) / (SCR_HEIGHT : α)) 0.1 200.0)),
         .set .lightCubeShader "view" (.mat4 (ext.getViewMatrix st.camera))] ++
        [.set .lightCubeShader "model" (.mat4 (translation
           (resolvePos ext.sin ext.cos anchorTable st.currentMode time ⟨0, by decide⟩)
           * scaling ⟨0.15, 0.15, 0.15⟩)),
         .bindVertexArray .cubeVAO,
         .drawArrays 0 36,
         .set .lightCubeShader "model" (.mat4 (translation
           (resolvePos ext.sin ext.cos anchorTable st.currentMode time ⟨1, by decide⟩)
           * scaling ⟨0.15, 0.15, 0.15⟩)),
         .bindVertexArray .cubeVAO,
         .drawArrays 0 36,
         .set .lightCubeShader "model" (.mat4 (translation
           (resolvePos ext.sin ext.cos anchorTable st.currentMode time ⟨2, by decide⟩)
           * scaling ⟨0.15, 0.15, 0.15⟩)),
         .bindVertexArray .cubeVAO,
         .drawArrays 0 36,
         .set .lightCubeShader "model" (.mat4 (translation
           (resolvePos ext.sin ext.cos anchorTable st.currentMode time ⟨3, by decide⟩)
           * scaling ⟨0.15, 0.15, 0.15⟩)),
         .bindVertexArray .cubeVAO,
         .drawArrays 0 36,
         .set .lightCubeShader "model" (.mat4 (translation
           (resolvePos ext.sin ext.cos anchorTable st.currentMode time ⟨4, by decide⟩)
           * scaling ⟨0.15, 0.15, 0.15⟩)),
         .bindVertexArray .cubeVAO,
         .drawArrays 0 36,
         .set .lightCubeShader "model" (.mat4 (translation
           (resolvePos ext.sin ext.cos anchorTable st.currentMode time ⟨5, by decide⟩)
           * scaling ⟨0.15, 0.15, 0.15⟩)),
         .bindVertexArray .cubeVAO,
         .drawArrays 0 36] := by
  simp [renderTrace, lampCalls, translate, scale]

/-- The lighting part of the trace never activates the lamp shader. -/
theorem lightingTrace_no_lamp_use {α : Type} [LinearOrderedField α] [FloorRing α]
    (ext : Extern α) (anchorTable colorTable : Fin 8 → Vec3 α) (keys : Keys) (time : α)
    (st : AppState α) :
    Call.use .lightCubeShader ∉ lightingTrace ext anchorTable colorTable keys time st := by
  simp [lightingTrace, globalCalls, spotLightCalls, pointLightCalls, ringCalls]

/-- The lighting part of the trace writes nothing to the lamp shader. -/
theorem lightingTrace_no_lamp_write {α : Type} [LinearOrderedField α] [FloorRing α]
    (ext : Extern α) (anchorTable colorTable : Fin 8 → Vec3 α) (keys : Keys) (time : α)
    (st : AppState α) :
    uniformWrites .lightCubeShader (lightingTrace ext anchorTable colorTable keys time st)
      = [] := by
  simp [lightingTrace, uniformWrites, globalCalls, spotLightCalls, pointLightCalls, ringCalls]

/-- A frame takes `sweep` through one `sweepStep` with the `deltaTime` of the
frame, and `(useGamma, gPressed)` through one `gStep`. -/
theorem frame_steps {α : Type} [LinearOrderedField α] [FloorRing α] (ext : Extern α)
    (anchorTable colorTable : Fin 8 → Vec3 α) (keys : Keys) (glfwTime : α) (st : AppState α) :
    ∃ st1 tr, frame ext anchorTable colorTable keys glfwTime st = some (st1, tr) ∧
      st1.deltaTime = glfwTime - st.lastFrame ∧
      st1.sweep = sweepStep keys.q keys.e (glfwTime - st.lastFrame) st.sweep ∧
      ({ useGamma := st1.useGamma, gPressed := st1.gPressed } : GState)
        = gStep keys.g { useGamma := st.useGamma, gPressed := st.gPressed } := by
  refine ⟨_, _, frame_eq ext anchorTable colorTable keys glfwTime st, ?_, ?_, ?_⟩
  · simp only [renderState, processInput, apply_ite AppState.deltaTime, ite_self]
  · simp only [renderState, processInput, apply_ite AppState.deltaTime,
      apply_ite AppState.sweep, ite_self]
  · simp only [renderState, processInput, apply_ite AppState.useGamma,
      apply_ite AppState.gPressed, ite_self]

/-! ## Claims -/

/-- C2: starting with `gPressed = false`, over every finite sequence of `G`
samples `useGamma` changes in exactly as many frames as the sequence has
maximal runs of consecutive pressed samples, and its final value is the
initial one flipped that many times; a pressed sample that directly follows a
pressed sample changes nothing.  The sequence pressed, pressed, pressed,
released, pressed, pressed flips `useGamma` twice and leaves it at its initial
value. -/
theorem g_debounce_one_flip_per_run (samples : List Bool) (u : Bool) :
    gFlips samples ⟨u, false⟩ = pressedRuns samples ∧
    (gRun samples ⟨u, false⟩).useGamma = (if pressedRuns samples % 2 = 0 then u else !u) ∧
    (∀ s : GState, gStep true (gStep true s) = gStep true s) ∧
    pressedRuns [true, true, true, false, true, true] = 2 ∧
    gFlips [true, true, true, false, true, true] ⟨u, false⟩ = 2 ∧
    (gRun [true, true, true, false, true, true] ⟨u, false⟩).useGamma = u := by
  refine ⟨(gFlips_gRun_aux samples u).1.1, (gFlips_gRun_aux samples u).1.2, ?_, ?_, ?_, ?_⟩
  · rintro ⟨v, g⟩
    cases g <;> simp [gStep]
  · decide
  · cases u <;> decide
  · cases u <;> decide

/-- C3: in any sequence of frames, a frame `k` with `deltaTime >= 0` leaves the
sweep angle no smaller when only `E` is held, no larger when only `Q` is held,
and unchanged when neither is held; when exactly one of the two keys is held
the angle changes by `0.8 * deltaTime` in magnitude. -/
theorem sweep_frame_monotone (frames : List (Bool × Bool × ℝ)) (sweep0 : ℝ) (k : Nat)
    (q e : Bool) (dt : ℝ) (hk : frames.get? k = some (q, e, dt)) (hdt : 0 ≤ dt) :
    (q = false → e = true →
      sweepRun (frames.take k) sweep0 ≤ sweepRun (frames.take (k + 1)) sweep0 ∧
      |sweepRun (frames.take (k + 1)) sweep0 - sweepRun (frames.take k) sweep0| = 0.8 * dt) ∧
    (q = true → e = false →
      sweepRun (frames.take (k + 1)) sweep0 ≤ sweepRun (frames.take k) sweep0 ∧
      |sweepRun (frames.take (k + 1)) sweep0 - sweepRun (frames.take k) sweep0| = 0.8 * dt) ∧
    (q = false → e = false →
      sweepRun (frames.take (k + 1)) sweep0 = sweepRun (frames.take k) sweep0) := by
  rw [sweepRun_take_succ frames sweep0 k q e dt hk]
  have h08 : (0 : ℝ) ≤ 0.8 * dt := by positivity
  refine ⟨?_, ?_, ?_⟩
  · rintro rfl rfl
    simp only [sweepStep, Bool.false_eq_true, if_false, if_true]
    refine ⟨by linarith, ?_⟩
    rw [add_sub_cancel_left, abs_of_nonneg h08]
  · rintro rfl rfl
    simp only [sweepStep, Bool.false_eq_true, if_false, if_true]
    refine ⟨by linarith, ?_⟩
    rw [sub_sub_cancel_left, abs_neg, abs_of_nonneg h08]
  · rintro rfl rfl
    simp [sweepStep]

/-- Witness of C3: a two-frame sequence, `E` held for half a second and then
`Q` held for a quarter; the second frame takes the angle down by `0.2`. -/
theorem sweep_frame_monotone_witness :
    [(false, true, (1 / 2 : ℝ)), (true, false, 1 / 4)].get? 1 = some (true, false, 1 / 4) ∧
    (0 : ℝ) ≤ 1 / 4 ∧
    sweepRun (List.take 2 [(false, true, (1 / 2 : ℝ)), (true, false, 1 / 4)]) 0
        ≤ sweepRun (List.take 1 [(false, true, (1 / 2 : ℝ)), (true, false, 1 / 4)]) 0 ∧
    |sweepRun (List.take 2 [(false, true, (1 / 2 : ℝ)), (true, false, 1 / 4)]) 0
        - sweepRun (List.take 1 [(false, true, (1 / 2 : ℝ)), (true, false, 1 / 4)]) 0|
      = 0.8 * (1 / 4) :=
  ⟨by simp, by norm_num,
    (sweep_frame_monotone [(false, true, (1 / 2 : ℝ)), (true, false, 1 / 4)] 0 1
      true false (1 / 4) (by simp) (by norm_num)).2.1 rfl rfl⟩

/-- C9: in Orbit mode the resolved position of light `i` differs from
`anchors[i]` in its Y component by `0.2 * sin (1.3 * t + 0.7 * i)`, which lies
in `[-0.2, 0.2]`, for every index of the table and every time `t` (so for
`i` in `[0, 6)` and `t >= 0`). -/
theorem orbit_bob_range (anchorTable : Fin 8 → Vec3 ℝ) (i : Fin 8) (t : ℝ) :
    (resolvePos Real.sin Real.cos anchorTable 1 t i).y - (anchorTable i).y
      = 0.2 * Real.sin (1.3 * t + 0.7 * (i.val : ℝ)) ∧
    -0.2 ≤ (resolvePos Real.sin Real.cos anchorTable 1 t i).y - (anchorTable i).y ∧
    (resolvePos Real.sin Real.cos anchorTable 1 t i).y - (anchorTable i).y ≤ 0.2 := by
  have h1 := Real.neg_one_le_sin (t * 1.3 + (i.val : ℝ) * 0.7)
  have h2 := Real.sin_le_one (t * 1.3 + (i.val : ℝ) * 0.7)
  have e : (1.3 : ℝ) * t + 0.7 * (i.val : ℝ) = t * 1.3 + (i.val : ℝ) * 0.7 := by ring
  rw [resolvePos, motionStep_orbit, e]
  simp only [add_sub_cancel_left]
  refine ⟨trivial, ?_, ?_⟩ <;> linarith

/-- C8: for every anchor table, every light and every time the resolved
position is `anchors[i]` plus `(r sin (0.9 t + i), 0.2 sin (1.3 t + 0.7 i),
r cos (1.1 t + 0.5 i))`, `r = 0.6 + 0.2 i`, in Orbit mode, and `anchors[i]`
plus `(sin a * (1 + 0.2 i), 0.6 - 0.2 |sin a|, 0)`, `a = 0.6 sin (1.2 t + i)`,
in Pendulum mode.  At `t = 0`, `i = 0` these displacements are `(0, 0, 0.6)`
and `(0, 0.6, 0)`; with the anchor table of `main` light 0 is then at
`(0, 1.2, 3.1)` and `(0, 1.8, 2.5)`. -/
theorem orbit_pendulum_at_start (anchorTable : Fin 8 → Vec3 ℝ) :
    (∀ (t : ℝ) (i : Fin 8), resolvePos Real.sin Real.cos anchorTable 1 t i =
      anchorTable i +
        { x := (0.6 + 0.2 * (i.val : ℝ)) * Real.sin (0.9 * t + (i.val : ℝ)),
          y := 0.2 * Real.sin (1.3 * t + 0.7 * (i.val : ℝ)),
          z := (0.6 + 0.2 * (i.val : ℝ)) * Real.cos (1.1 * t + 0.5 * (i.val : ℝ)) }) ∧
    (∀ (t : ℝ) (i : Fin 8), resolvePos Real.sin Real.cos anchorTable 2 t i =
      anchorTable i +
        { x := Real.sin (0.6 * Real.sin (1.2 * t + (i.val : ℝ))) * (1 + 0.2 * (i.val : ℝ)),
          y := 0.6 - 0.2 * |Real.sin (0.6 * Real.sin (1.2 * t + (i.val : ℝ)))|,
          z := 0 }) ∧
    resolvePos Real.sin Real.cos anchorTable 1 0 0 = anchorTable 0 + { x := 0, y := 0, z := 0.6 } ∧
    resolvePos Real.sin Real.cos anchorTable 2 0 0 = anchorTable 0 + { x := 0, y := 0.6, z := 0 } ∧
    resolvePos Real.sin Real.cos anchors 1 0 0 = { x := 0, y := 1.2, z := 3.1 } ∧
    resolvePos Real.sin Real.cos anchors 2 0 0 = { x := 0, y := 1.8, z := 2.5 } := by
  have orbit0 : ∀ tbl : Fin 8 → Vec3 ℝ, resolvePos Real.sin Real.cos tbl 1 0 0
      = tbl 0 + { x := 0, y := 0, z := 0.6 } := by
    intro tbl
    rw [resolvePos, motionStep_orbit]
    simp
  have pend0 : ∀ tbl : Fin 8 → Vec3 ℝ, resolvePos Real.sin Real.cos tbl 2 0 0
      = tbl 0 + { x := 0, y := 0.6, z := 0 } := by
    intro tbl
    rw [resolvePos, motionStep_pendulum]
    simp only [Vec3.add_def, Vec3.mk.injEq]
    norm_num
  refine ⟨?_, ?_, orbit0 anchorTable, pend0 anchorTable, ?_, ?_⟩
  · intro t i
    rw [resolvePos, motionStep_orbit]
    simp only [Vec3.add_def, Vec3.mk.injEq]
    refine ⟨?_, ?_, ?_⟩ <;> ring_nf
  · intro t i
    rw [resolvePos, motionStep_pendulum]
    simp only [Vec3.add_def, Vec3.mk.injEq]
    refine ⟨?_, ?_, ?_⟩ <;> ring_nf
  · rw [orbit0]
    simp only [anchors, Vec3.add_def, Vec3.mk.injEq, Matrix.cons_val_zero]
    norm_num
  · rw [pend0]
    simp only [anchors, Vec3.add_def, Vec3.mk.injEq, Matrix.cons_val_zero]
    norm_num

/-- C5: for every light `i` and every time `t >= 0` the Spiral height term
`h = fmod (0.4 t + 0.2 i, 3) - 1.5` lies in `[-1.5, 1.5)` and takes the same
value at `t + 7.5`, whatever the index; the index only shifts the phase, the
height of light `i` at `t` being the height of light 0 at `t + 0.5 i`. -/
theorem spiral_height_cycle (i : Nat) (t : ℝ) (ht : 0 ≤ t) :
    spiralH t i = fmod (0.4 * t + 0.2 * (i : ℝ)) 3 - 1.5 ∧
    -1.5 ≤ spiralH t i ∧ spiralH t i < 1.5 ∧
    spiralH (t + 7.5) i = spiralH t i ∧
    spiralH t i = spiralH (t + 0.5 * (i : ℝ)) 0 := by
  have hi : (0 : ℝ) ≤ (i : ℝ) := Nat.cast_nonneg i
  have hx : (0 : ℝ) ≤ t * 0.4 + 0.2 * (i : ℝ) := by positivity
  have h3 : (0 : ℝ) < 3.0 := by norm_num
  obtain ⟨r1, r2⟩ := fmod_range (t * 0.4 + 0.2 * (i : ℝ)) 3.0 hx h3
  have e1 : (0.4 : ℝ) * t + 0.2 * (i : ℝ) = t * 0.4 + 0.2 * (i : ℝ) := by ring
  have e2 : (t + 7.5) * 0.4 + 0.2 * (i : ℝ) = (t * 0.4 + 0.2 * (i : ℝ)) + 3.0 := by ring
  have e3 : (3 : ℝ) = 3.0 := by norm_num
  have e4 : (t + 0.5 * (i : ℝ)) * 0.4 + 0.2 * ((0 : Nat) : ℝ) = t * 0.4 + 0.2 * (i : ℝ) := by
    push_cast; ring
  refine ⟨?_, ?_, ?_, ?_, ?_⟩
  · rw [spiralH, e1, e3]
  · rw [spiralH]; linarith
  · rw [spiralH]; norm_num at r2 ⊢; linarith
  · rw [spiralH, spiralH, e2, fmod_add_divisor _ _ hx h3]
  · rw [spiralH, spiralH, e4]

/-- Witness of C5: light 2 at `t = 1`. -/
theorem spiral_height_cycle_witness :
    (0 : ℝ) ≤ 1 ∧
    spiralH (1 : ℝ) 2 = fmod (0.4 * 1 + 0.2 * ((2 : Nat) : ℝ)) 3 - 1.5 ∧
    -1.5 ≤ spiralH (1 : ℝ) 2 ∧ spiralH (1 : ℝ) 2 < 1.5 ∧
    spiralH ((1 : ℝ) + 7.5) 2 = spiralH (1 : ℝ) 2 ∧
    spiralH (1 : ℝ) 2 = spiralH ((1 : ℝ) + 0.5 * ((2 : Nat) : ℝ)) 0 :=
  ⟨by norm_num, spiral_height_cycle 2 1 (by norm_num)⟩

/-- C6, counterexample: with the anchor table of `main`, light 0 in Spiral mode
has at `t = 0` the height `-0.5`, not `fmod (0.4 * 0 + 0.2 * 0, 3) - 1.5 = -1.5`,
and at `t = 5` the height `1.5`, which is not below `1.5`. -/
theorem spiral_position_counterexample :
    (resolvePos Real.sin Real.cos anchors 3 0 0).y = -0.5 ∧
    (resolvePos Real.sin Real.cos anchors 3 0 0).y
      ≠ fmod (0.4 * 0 + 0.2 * (((0 : Fin 8).val : Nat) : ℝ)) 3 - 1.5 ∧
    (resolvePos Real.sin Real.cos anchors 3 5 0).y = 1.5 ∧
    ¬ ((resolvePos Real.sin Real.cos anchors 3 5 0).y < 1.5) := by
  have f0 : fmod (0 : ℝ) 3 = 0 := fmod_of_lt 0 3 le_rfl (by norm_num)
  have f2 : fmod (2 : ℝ) 3 = 2 := fmod_of_lt 2 3 (by norm_num) (by norm_num)
  have y0 : (resolvePos Real.sin Real.cos anchors 3 0 0).y = -0.5 := by
    rw [resolvePos, motionStep_spiral]
    simp only [spiralH]
    norm_num [f0]
  have y5 : (resolvePos Real.sin Real.cos anchors 3 5 0).y = 1.5 := by
    rw [resolvePos, motionStep_spiral]
    simp only [spiralH]
    norm_num [f2]
  refine ⟨y0, ?_, y5, ?_⟩
  · rw [y0]
    norm_num [f0]
  · rw [y5]
    exact lt_irrefl _

/-- C6, amended: for every anchor table, every light `i` and every time
`t >= 0`, the Spiral-mode position is `(r cos (t + i), 1 + h, r sin (t + i) - 2)`
with `r = 0.8 + 0.25 i` and `h = fmod (0.4 t + 0.2 i, 3) - 1.5`; its y
coordinate lies in `[-0.5, 2.5)`. -/
theorem spiral_position (anchorTable : Fin 8 → Vec3 ℝ) (i : Fin 8) (t : ℝ) (ht : 0 ≤ t) :
    resolvePos Real.sin Real.cos anchorTable 3 t i =
      { x := (0.8 + 0.25 * (i.val : ℝ)) * Real.cos (t + (i.val : ℝ)),
        y := 1 + (fmod (0.4 * t + 0.2 * (i.val : ℝ)) 3 - 1.5),
        z := (0.8 + 0.25 * (i.val : ℝ)) * Real.sin (t + (i.val : ℝ)) - 2 } ∧
    -0.5 ≤ (resolvePos Real.sin Real.cos anchorTable 3 t i).y ∧
    (resolvePos Real.sin Real.cos anchorTable 3 t i).y < 2.5 := by
  have hi : (0 : ℝ) ≤ (i.val : ℝ) := Nat.cast_nonneg _
  have hx : (0 : ℝ) ≤ t * 0.4 + 0.2 * (i.val : ℝ) := by positivity
  obtain ⟨r1, r2⟩ := fmod_range (t * 0.4 + 0.2 * (i.val : ℝ)) 3.0 hx (by norm_num)
  have e1 : (0.4 : ℝ) * t + 0.2 * (i.val : ℝ) = t * 0.4 + 0.2 * (i.val : ℝ) := by ring
  have e3 : (3 : ℝ) = 3.0 := by norm_num
  have e10 : t * 1.0 = t := by norm_num
  rw [resolvePos, motionStep_spiral]
  simp only [spiralH, Vec3.mk.injEq, e1, e3, e10]
  refine ⟨⟨?_, ?_, ?_⟩, ?_, ?_⟩
  · rw [add_zero]
  · norm_num
  · norm_num [sub_eq_add_neg]
  · linarith
  · norm_num at r2 ⊢; linarith

/-- Witness of C6 (amended): light 2 at `t = 1`. -/
theorem spiral_position_witness :
    (0 : ℝ) ≤ 1 ∧
    resolvePos Real.sin Real.cos anchors 3 1 2 =
      { x := (0.8 + 0.25 * (((2 : Fin 8).val : Nat) : ℝ)) * Real.cos (1 + (((2 : Fin 8).val : Nat) : ℝ)),
        y := 1 + (fmod (0.4 * 1 + 0.2 * (((2 : Fin 8).val : Nat) : ℝ)) 3 - 1.5),
        z := (0.8 + 0.25 * (((2 : Fin 8).val : Nat) : ℝ)) * Real.sin (1 + (((2 : Fin 8).val : Nat) : ℝ)) - 2 } ∧
    -0.5 ≤ (resolvePos Real.sin Real.cos anchors 3 1 2).y ∧
    (resolvePos Real.sin Real.cos anchors 3 1 2).y < 2.5 :=
  ⟨by norm_num, spiral_position anchors 2 1 (by norm_num)⟩

/-- C1, counterexample: with the anchor table of `main`, light 0 in Orbit mode
at `t = 10 π / 11` is displaced in the XZ plane by more than its radius
`0.6 + 0.2 * 0`: there `dx = 0.6 sin (9 π / 11)` and `dz = 0.6 cos π = -0.6`. -/
theorem orbit_xz_counterexample :
    0.6 + 0.2 * (((0 : Fin 8).val : Nat) : ℝ) <
      Real.sqrt (((resolvePos Real.sin Real.cos anchors 1 (10 * Real.pi / 11) 0).x
                    - (anchors (0 : Fin 8) : Vec3 ℝ).x) ^ 2
                + ((resolvePos Real.sin Real.cos anchors 1 (10 * Real.pi / 11) 0).z
                    - (anchors (0 : Fin 8) : Vec3 ℝ).z) ^ 2) := by
  have hs : 0 < Real.sin (9 * Real.pi / 11) :=
    Real.sin_pos_of_pos_of_lt_pi (by positivity) (by linarith [Real.pi_pos])
  have ea : 10 * Real.pi / 11 * 0.9 + (((0 : Fin 8).val : Nat) : ℝ) = 9 * Real.pi / 11 := by
    norm_num; ring
  have eb : 10 * Real.pi / 11 * 1.1 + 0.5 * (((0 : Fin 8).val : Nat) : ℝ) = Real.pi := by
    norm_num; ring
  rw [resolvePos, motionStep_orbit]
  simp only [add_sub_cancel_left, ea, eb, Real.cos_pi]
  apply Real.lt_sqrt_of_sq_lt
  have : 0 < Real.sin (9 * Real.pi / 11) ^ 2 := by positivity
  norm_num
  nlinarith

/-- C1, amended: for every anchor table, every light `i` and every time `t`, the
Orbit-mode displacement has `dx = r sin (0.9 t + i)` and `dz = r cos (1.1 t + 0.5 i)`
with `r = 0.6 + 0.2 i`; each of `|dx|`, `|dz|` is at most `r`, and the XZ
magnitude `sqrt (dx^2 + dz^2)` lies in `[0, sqrt 2 * r]`. -/
theorem orbit_xz_magnitude (anchorTable : Fin 8 → Vec3 ℝ) (i : Fin 8) (t : ℝ) :
    (resolvePos Real.sin Real.cos anchorTable 1 t i).x - (anchorTable i).x
      = (0.6 + 0.2 * (i.val : ℝ)) * Real.sin (0.9 * t + (i.val : ℝ)) ∧
    (resolvePos Real.sin Real.cos anchorTable 1 t i).z - (anchorTable i).z
      = (0.6 + 0.2 * (i.val : ℝ)) * Real.cos (1.1 * t + 0.5 * (i.val : ℝ)) ∧
    |(resolvePos Real.sin Real.cos anchorTable 1 t i).x - (anchorTable i).x|
      ≤ 0.6 + 0.2 * (i.val : ℝ) ∧
    |(resolvePos Real.sin Real.cos anchorTable 1 t i).z - (anchorTable i).z|
      ≤ 0.6 + 0.2 * (i.val : ℝ) ∧
    0 ≤ Real.sqrt (((resolvePos Real.sin Real.cos anchorTable 1 t i).x - (anchorTable i).x) ^ 2
                + ((resolvePos Real.sin Real.cos anchorTable 1 t i).z - (anchorTable i).z) ^ 2) ∧
    Real.sqrt (((resolvePos Real.sin Real.cos anchorTable 1 t i).x - (anchorTable i).x) ^ 2
                + ((resolvePos Real.sin Real.cos anchorTable 1 t i).z - (anchorTable i).z) ^ 2)
      ≤ Real.sqrt 2 * (0.6 + 0.2 * (i.val : ℝ)) := by
  have hi : (0 : ℝ) ≤ (i.val : ℝ) := Nat.cast_nonneg _
  have hr : (0 : ℝ) ≤ 0.6 + 0.2 * (i.val : ℝ) := by positivity
  have ea : (0.9 : ℝ) * t + (i.val : ℝ) = t * 0.9 + (i.val : ℝ) := by ring
  have eb : (1.1 : ℝ) * t + 0.5 * (i.val : ℝ) = t * 1.1 + 0.5 * (i.val : ℝ) := by ring
  have hs := Real.abs_sin_le_one (t * 0.9 + (i.val : ℝ))
  have hc := Real.abs_cos_le_one (t * 1.1 + 0.5 * (i.val : ℝ))
  have hs2 := Real.sin_sq_le_one (t * 0.9 + (i.val : ℝ))
  have hc2 := Real.cos_sq_le_one (t * 1.1 + 0.5 * (i.val : ℝ))
  rw [resolvePos, motionStep_orbit]
  simp only [add_sub_cancel_left, ea, eb]
  refine ⟨trivial, trivial, ?_, ?_, Real.sqrt_nonneg _, ?_⟩
  · rw [abs_mul, abs_of_nonneg hr]
    exact mul_le_of_le_one_right hr hs
  · rw [abs_mul, abs_of_nonneg hr]
    exact mul_le_of_le_one_right hr hc
  · have e2 : Real.sqrt 2 * (0.6 + 0.2 * (i.val : ℝ))
        = Real.sqrt (2 * (0.6 + 0.2 * (i.val : ℝ)) ^ 2) := by
      rw [Real.sqrt_mul (by norm_num : (0 : ℝ) ≤ 2), Real.sqrt_sq hr]
    rw [e2]
    apply Real.sqrt_le_sqrt
    have hr2 : (0 : ℝ) ≤ (0.6 + 0.2 * (i.val : ℝ)) ^ 2 := sq_nonneg _
    nlinarith [mul_le_mul_of_nonneg_left hs2 hr2, mul_le_mul_of_nonneg_left hc2 hr2]

/-- C7: in Spiral mode the resolved position of light `i` at time `t` is the
same for any two anchor tables, and is not `anchors[i]` plus a displacement
that is the same for all tables; in Orbit, Pendulum and Swarm mode it is
`anchors[i] + d mode t i` for a displacement `d` that does not take the table. -/
theorem spiral_overrides_anchor {α : Type} [LinearOrderedField α] [FloorRing α]
    (sin cos : α → α) :
    (∀ (tbl1 tbl2 : Fin 8 → Vec3 α) (t : α) (i : Fin 8),
      resolvePos sin cos tbl1 3 t i = resolvePos sin cos tbl2 3 t i) ∧
    (∀ (t : α) (i : Fin 8), ¬ ∃ d : Vec3 α, ∀ tbl : Fin 8 → Vec3 α,
      resolvePos sin cos tbl 3 t i = tbl i + d) ∧
    (∃ d : Int → α → Fin 8 → Vec3 α,
      (∀ (tbl : Fin 8 → Vec3 α) (t : α) (i : Fin 8),
        resolvePos sin cos tbl 1 t i = tbl i + d 1 t i) ∧
      (∀ (tbl : Fin 8 → Vec3 α) (t : α) (i : Fin 8),
        resolvePos sin cos tbl 2 t i = tbl i + d 2 t i) ∧
      (∀ (tbl : Fin 8 → Vec3 α) (t : α) (i : Fin 8),
        resolvePos sin cos tbl 4 t i = tbl i + d 4 t i)) := by
  refine ⟨?_, ?_, ?_⟩
  · intro tbl1 tbl2 t i
    rw [resolvePos, resolvePos, motionStep_spiral, motionStep_spiral]
  · rintro t i ⟨d, hd⟩
    have h0 := hd (fun _ => ⟨0, 0, 0⟩)
    have h1 := hd (fun _ => ⟨1, 0, 0⟩)
    rw [resolvePos, motionStep_spiral] at h0 h1
    rw [h0] at h1
    simp only [Vec3.add_def, Vec3.mk.injEq, zero_add] at h1
    have := h1.1
    linarith
  · refine ⟨fun mode t i => motionStep sin cos mode t i.val ⟨0, 0, 0⟩, ?_, ?_, ?_⟩
    · intro tbl t i
      dsimp only
      rw [resolvePos, motionStep_orbit, motionStep_orbit]
      simp only [Vec3.add_def, zero_add]
    · intro tbl t i
      dsimp only
      rw [resolvePos, motionStep_pendulum, motionStep_pendulum]
      simp only [Vec3.add_def, zero_add]
    · intro tbl t i
      dsimp only
      rw [resolvePos, motionStep_swarm, motionStep_swarm]
      simp only [Vec3.add_def, zero_add]

/-- C4: every frame succeeds and, whatever the mode, the time, the keys and
the tables, its writes to the lighting shader set `numPointLights` to 6 (the
name is written once), and the writes whose name starts with `pointLights[`
are the eight fields `position, color, constant, linear, quadratic, ambient,
diffuse, specular` of the blocks 0, 1, 2, 3, 4, 5 in this order, 48 = 8 * 6
writes; no name written starts with `pointLights[6]` or `pointLights[7]`. -/
theorem frame_point_light_blocks {α : Type} [LinearOrderedField α] [FloorRing α]
    (ext : Extern α) (anchorTable colorTable : Fin 8 → Vec3 α) (keys : Keys) (glfwTime : α)
    (st : AppState α) :
    ∃ st1 tr, frame ext anchorTable colorTable keys glfwTime st = some (st1, tr) ∧
      intWrites .lightingShader "numPointLights" tr = [6] ∧
      (uniformNames .lightingShader tr).count "numPointLights" = 1 ∧
      (uniformNames .lightingShader tr).filter (startsWith "pointLights[")
        = blockNames 0 ++ blockNames 1 ++ blockNames 2 ++ blockNames 3 ++ blockNames 4
            ++ blockNames 5 ∧
      ((uniformNames .lightingShader tr).filter (startsWith "pointLights[")).length = 8 * 6 ∧
      (∀ n ∈ uniformNames .lightingShader tr,
        startsWith "pointLights[6]" n = false ∧ startsWith "pointLights[7]" n = false) ∧
      blockNames 3 = ["pointLights[3].position", "pointLights[3].color",
        "pointLights[3].constant", "pointLights[3].linear", "pointLights[3].quadratic",
        "pointLights[3].ambient", "pointLights[3].diffuse", "pointLights[3].specular"] := by
  refine ⟨_, _, frame_eq ext anchorTable colorTable keys glfwTime st, ?_⟩
  rw [uniformNames_renderTrace, intWrites_renderTrace, litNames_blocks]
  exact ⟨rfl, litNames_count, rfl, by decide, litNames_no_stale, by decide⟩

/-- C10: every frame succeeds and its trace ends with the lamp section: after
a part `pre` that neither activates the lamp shader nor writes to it, the
lamp shader is activated and gets `projection` and `view`, and then, for
`i = 0, ..., 5` in this order, marker `i` is the write of the model matrix
`T(p i) * S(0.15)` to the lamp shader, the binding of the cube and the draw of
its 36 vertices, nothing else following.  Here `p i` is the resolved position
of light `i`, the vector that the same frame writes, once, under
`pointLights[i].position`.  The point-light loop assigns exactly the entries
`0..5` of `positions`, the ones the marker loop reads. -/
theorem lamp_markers_at_light_positions {α : Type} [LinearOrderedField α] [FloorRing α]
    (ext : Extern α) (anchorTable colorTable : Fin 8 → Vec3 α) (keys : Keys) (glfwTime : α)
    (st : AppState α) :
    ∃ st1 tr, frame ext anchorTable colorTable keys glfwTime st = some (st1, tr) ∧
      (mat4Writes .lightCubeShader "model" tr).length = 6 ∧
      (∀ i : Fin 6, ∃ p : Vec3 α,
        vec3Writes .lightingShader ("pointLights[" ++ Nat.repr i.val ++ "]" ++ ".position") tr
          = [p] ∧
        (mat4Writes .lightCubeShader "model" tr).get? i.val
          = some (translation p * scaling ⟨0.15, 0.15, 0.15⟩) ∧
        p = resolvePos ext.sin ext.cos anchorTable st1.currentMode glfwTime
              (Fin.castLE (by decide) i)) ∧
      (∀ calls : List (Call α), ∃ s,
        forLoop 6 (pointLightBody ext anchorTable colorTable st1.currentMode glfwTime)
          { positions := fun _ => none, calls := calls } = some s ∧
        (∀ k : Fin 8, s.positions k =
          if k.val < 6 then
            some (resolvePos ext.sin ext.cos anchorTable st1.currentMode glfwTime k)
          else none) ∧
        (forLoop 6 lampBody s).isSome = true) ∧
      (∃ pre : List (Call α),
        Call.use .lightCubeShader ∉ pre ∧
        uniformWrites .lightCubeShader pre = [] ∧
        tr = pre ++
          [.use .lightCubeShader,
           .set .lightCubeShader "projection" (.mat4 (ext.perspective
              (ext.radians st1.camera.Zoom) ((SCR_WIDTH : α) / (SCR_HEIGHT : α)) 0.1 200.0)),
           .set .lightCubeShader "view" (.mat4 (ext.getViewMatrix st1.camera))] ++
          [.set .lightCubeShader "model" (.mat4 (translation
             (resolvePos ext.sin ext.cos anchorTable st1.currentMode glfwTime ⟨0, by decide⟩)
             * scaling ⟨0.15, 0.15, 0.15⟩)),
           .bindVertexArray .cubeVAO,
           .drawArrays 0 36,
           .set .lightCubeShader "model" (.mat4 (translation
             (resolvePos ext.sin ext.cos anchorTable st1.currentMode glfwTime ⟨1, by decide⟩)
             * scaling ⟨0.15, 0.15, 0.15⟩)),
           .bindVertexArray .cubeVAO,
           .drawArrays 0 36,
           .set .lightCubeShader "model" (.mat4 (translation
             (resolvePos ext.sin ext.cos anchorTable st1.currentMode glfwTime ⟨2, by decide⟩)
             * scaling ⟨0.15, 0.15, 0.15⟩)),
           .bindVertexArray .cubeVAO,
           .drawArrays 0 36,
           .set .lightCubeShader "model" (.mat4 (translation
             (resolvePos ext.sin ext.cos anchorTable st1.currentMode glfwTime ⟨3, by decide⟩)
             * scaling ⟨0.15, 0.15, 0.15⟩)),
           .bindVertexArray .cubeVAO,
           .drawArrays 0 36,
           .set .lightCubeShader "model" (.mat4 (translation
             (resolvePos ext.sin ext.cos anchorTable st1.currentMode glfwTime ⟨4, by decide⟩)
             * scaling ⟨0.15, 0.15, 0.15⟩)),
           .bindVertexArray .cubeVAO,
           .drawArrays 0 36,
           .set .lightCubeShader "model" (.mat4 (translation
             (resolvePos ext.sin ext.cos anchorTable st1.currentMode glfwTime ⟨5, by decide⟩)
             * scaling ⟨0.15, 0.15, 0.15⟩)),
           .bindVertexArray .cubeVAO,
           .drawArrays 0 36]) := by
  refine ⟨_, _, frame_eq ext anchorTable colorTable keys glfwTime st, ?_, ?_, ?_, ?_⟩
  · rw [mat4Writes_renderTrace]
    rfl
  · intro i
    refine ⟨_, vec3Writes_renderTrace ext anchorTable colorTable keys glfwTime _ i, ?_, rfl⟩
    rw [mat4Writes_renderTrace]
    fin_cases i <;> rfl
  · intro calls
    obtain ⟨s, hs, hpos⟩ := pointLight_loop_positions ext anchorTable colorTable
      (renderState keys (processInput ext keys
        { st with deltaTime := glfwTime - st.lastFrame, lastFrame := glfwTime })).currentMode
      glfwTime calls
    refine ⟨s, hs, hpos, ?_⟩
    rw [lamp_loop s (resolvePos ext.sin ext.cos anchorTable
      (renderState keys (processInput ext keys
        { st with deltaTime := glfwTime - st.lastFrame, lastFrame := glfwTime })).currentMode
      glfwTime)]
    · rfl
    · intro k hk
      rw [hpos k, if_pos hk]
  · exact ⟨_, lightingTrace_no_lamp_use ext anchorTable colorTable keys glfwTime _,
      lightingTrace_no_lamp_write ext anchorTable colorTable keys glfwTime _,
      renderTrace_lamp_section ext anchorTable colorTable keys glfwTime _⟩

end KineticSculpture
